import Mathlib

/-!
Verification of the SyncSentinel log-parsing and sink-reconciliation core.

This file shallowly embeds the Python sources (`syncsentinel/parser.py`,
`syncsentinel/handler.py`, `google_sheets.py`) into Lean 4:

* each regular expression used by `parse_sync_log` is modelled by a
  hand-written matcher over `List Char` with Python's leftmost / greedy
  backtracking semantics (for the patterns at hand every sub-pattern except
  the leading `(.+)` of the header pattern is deterministic, and `(.+)"` is
  resolved by the last closing quote, exactly as the backtracking engine
  does);
* `\d`, `\w` and `\s` are modelled as their ASCII subsets and `splitlines`
  as splitting on LF / CR / CRLF; all inputs used in the theorems below are
  ASCII and newline-normal, so the models agree with CPython on them;
* the CSV sink is modelled as an optional list of rows (absent file /
  present file with a list of rows), with `csv.DictReader` / `DictWriter`
  semantics spelled out (first row read as fieldnames, blank rows skipped,
  a key outside the writer's fieldnames raising `ValueError`);
* the Google-Sheets sink is modelled as a list of rows with explicit
  range-update semantics; network transport is assumed to succeed and the
  `insertDimension` prepend primitive to be available, matching the primary
  code path of `GoogleSheetsManager.upload_data`;
* the watcher callback `LogFileHandler.on_created` is modelled by its
  control flow over abstract sink outcomes.
-/

/-! ## Character classes and Python string helpers -/

/-- ASCII model of Python's `\s` (the whitespace stripped by `str.strip`). -/
def pySpace (c : Char) : Bool :=
  c = ' ' || c = '\t' || c = '\n' || c = '\r' || c = '\x0b' || c = '\x0c'

/-- ASCII model of Python's `\w` word character class. -/
def isWordChar (c : Char) : Bool := c.isAlphanum || c = '_'

/-- Python `str.strip()` on a character list. -/
def pyStripCh (cs : List Char) : List Char :=
  ((cs.dropWhile pySpace).reverse.dropWhile pySpace).reverse

/-- Python `str.strip()`. -/
def pyStrip (s : String) : String := String.mk (pyStripCh s.data)

/-- Python `str.startswith(pre)`. -/
def pyStartsWith (s pre : String) : Bool :=
  s.data.take pre.data.length = pre.data

/-- Python `str.lower()` (ASCII case mapping). -/
def pyLower (s : String) : String := String.mk (s.data.map Char.toLower)

/-- Python `str.upper()` (ASCII case mapping). -/
def pyUpper (s : String) : String := String.mk (s.data.map Char.toUpper)

/-- Python `str.splitlines()` restricted to LF, CR and CRLF line breaks. -/
def splitlinesAux : List Char → List Char → List (List Char)
  | [], acc => if acc.isEmpty then [] else [acc.reverse]
  | '\r' :: '\n' :: rest, acc => acc.reverse :: splitlinesAux rest []
  | '\n' :: rest, acc => acc.reverse :: splitlinesAux rest []
  | '\r' :: rest, acc => acc.reverse :: splitlinesAux rest []
  | c :: rest, acc => splitlinesAux rest (c :: acc)

/-- `content.splitlines()` as a list of strings. -/
def splitlinesStr (content : String) : List String :=
  (splitlinesAux content.data []).map String.mk

/-! ## Deterministic regex building blocks

Each Python regular expression of `parser.py` is modelled by a matcher that
consumes a `List Char` suffix.  `runOf p` models a greedy nonempty character
class repetition `[...]+` whose class excludes the character that follows it
in the pattern, so the maximal run is the unique possible match. -/

/-- Greedy nonempty run of characters satisfying `p` (a `[...]+` atom). -/
def runOf (p : Char → Bool) (cs : List Char) : Option (List Char × List Char) :=
  let r := cs.takeWhile p
  if r.isEmpty then none else some (r, cs.dropWhile p)

/-- Consume a literal character sequence. -/
def dropLit (lit : List Char) (cs : List Char) : Option (List Char) :=
  if cs.take lit.length = lit then some (cs.drop lit.length) else none

/-- The `\d+/\d+/\d+` date atom; returns the matched text and the rest. -/
def slashDate (cs : List Char) : Option (List Char × List Char) := do
  let (d1, r1) ← runOf Char.isDigit cs
  let r2 ← dropLit ['/'] r1
  let (d2, r3) ← runOf Char.isDigit r2
  let r4 ← dropLit ['/'] r3
  let (d3, r5) ← runOf Char.isDigit r4
  some (d1 ++ '/' :: d2 ++ '/' :: d3, r5)

/-- The `\d+:\d+:\d+` duration atom. -/
def clockTime (cs : List Char) : Option (List Char × List Char) := do
  let (h, r1) ← runOf Char.isDigit cs
  let r2 ← dropLit [':'] r1
  let (m, r3) ← runOf Char.isDigit r2
  let r4 ← dropLit [':'] r3
  let (s, r5) ← runOf Char.isDigit r4
  some (h ++ ':' :: m ++ ':' :: s, r5)

/-- The `\d+:\d+:\d+ \w+` clock-with-meridiem atom. -/
def ampmTime (cs : List Char) : Option (List Char × List Char) := do
  let (t, r1) ← clockTime cs
  let r2 ← dropLit [' '] r1
  let (w, r3) ← runOf isWordChar r2
  some (t ++ ' ' :: w, r3)

/-- Leftmost-match search: try the positional matcher at every suffix,
left to right, as `re.search` does. -/
def searchFrom (f : List Char → Option α) : List Char → Option α
  | [] => f []
  | cs@(_ :: rest) =>
    match f cs with
    | some a => some a
    | none => searchFrom f rest

/-! ## The individual patterns of `parse_sync_log` (plain-text branch) -/

/-- Tail of the header pattern after the `(.+)` group:
` (\d+/\d+/\d+) \[(\d+:\d+:\d+ \w+)\]`, returning (date, start time). -/
def headerTail (cs : List Char) : Option (String × String) := do
  let r1 ← dropLit [' '] cs
  let (d, r2) ← slashDate r1
  let r3 ← dropLit [' ', '['] r2
  let (t, r4) ← ampmTime r3
  let _ ← dropLit [']'] r4
  some (String.mk d, String.mk t)

/-- `re.match r"(.+) (\d+/\d+/\d+) \[(\d+:\d+:\d+ \w+)\]"` (parser.py:95).
The greedy `(.+)` takes the longest prefix whose remainder matches, so we
try split positions from the right. -/
def headerMatch (cs : List Char) : Option (String × String × String) :=
  (List.range cs.length).reverse.findSome? fun i =>
    if i = 0 then none
    else
      match headerTail (cs.drop i) with
      | some (d, t) => some (String.mk (cs.take i), d, t)
      | none => none

/-- Digits-to-`Nat`, modelling Python `int` on a digit string. -/
def natOfDigits (cs : List Char) : Nat :=
  cs.foldl (fun a c => 10 * a + (c.toNat - '0'.toNat)) 0

/-- Positional matcher for `Items processed: (\d+) \(([\d.]+ \w+)\)`. -/
def itemsAt (cs : List Char) : Option (Nat × String) := do
  let r1 ← dropLit "Items processed: ".data cs
  let (n, r2) ← runOf Char.isDigit r1
  let r3 ← dropLit " (".data r2
  let (sz, r4) ← runOf (fun c => c.isDigit || c = '.') r3
  let r5 ← dropLit [' '] r4
  let (u, r6) ← runOf isWordChar r5
  let _ ← dropLit [')'] r6
  some (natOfDigits n, String.mk (sz ++ ' ' :: u))

/-- `re.search` for the items-processed pattern (parser.py:105). -/
def itemsFind (cs : List Char) : Option (Nat × String) := searchFrom itemsAt cs

/-- Positional matcher for `Total time: (\d+:\d+:\d+)`. -/
def totalTimeAt (cs : List Char) : Option String := do
  let r1 ← dropLit "Total time: ".data cs
  let (t, _) ← clockTime r1
  some (String.mk t)

/-- `re.search` for the total-time pattern (parser.py:110). -/
def totalTimeFind (cs : List Char) : Option String := searchFrom totalTimeAt cs

/-- Positional matcher for
`Info:\s+Comparison finished: ([\d,]+) items found – Time elapsed: (\d+:\d+:\d+)`.
Returns the raw `[\d,]+` group (as characters) and the duration. -/
def comparisonAt (cs : List Char) : Option (List Char × String) := do
  let r1 ← dropLit "Info:".data cs
  let (_, r2) ← runOf pySpace r1
  let r3 ← dropLit "Comparison finished: ".data r2
  let (g, r4) ← runOf (fun c => c.isDigit || c = ',') r3
  let r5 ← dropLit " items found – Time elapsed: ".data r4
  let (t, _) ← clockTime r5
  some (g, String.mk t)

/-- `re.search` for the comparison pattern (parser.py:115). -/
def comparisonFind (cs : List Char) : Option (List Char × String) :=
  searchFrom comparisonAt cs

/-- The literal folder-pair marker (parser.py:123). -/
def markerLit : List Char := "Synchronizing folder pair: Update >".data

/-- Python `in` substring test for the folder-pair marker. -/
def containsMarker (line : String) : Bool :=
  (searchFrom (dropLit markerLit) line.data).isSome

/-- Greedy `(.+)"`: everything up to the last double quote, nonempty. -/
def lastQuoteGroup (cs : List Char) : Option (List Char) :=
  match cs.reverse.dropWhile (fun c => c ≠ '"') with
  | [] => none
  | _ :: revGroup => if revGroup.isEmpty then none else some revGroup.reverse

/-- Positional matcher for `Info:\s+Creating file "(.+)"`. -/
def creatingAt (cs : List Char) : Option String := do
  let r1 ← dropLit "Info:".data cs
  let (_, r2) ← runOf pySpace r1
  let r3 ← dropLit "Creating file \"".data r2
  let g ← lastQuoteGroup r3
  some (String.mk g)

/-- `re.search` for the creating-file pattern (parser.py:138). -/
def creatingFind (cs : List Char) : Option String := searchFrom creatingAt cs

/-- `re.match r'\[(\d+:\d+:\d+ \w+)\]'` for the leading timestamp
(parser.py:142), anchored at the start of the line. -/
def timestampMatch (cs : List Char) : Option String := do
  let r1 ← dropLit ['['] cs
  let (t, r2) ← ampmTime r1
  let _ ← dropLit [']'] r2
  some (String.mk t)

/-! ## Patterns of the HTML branch -/

/-- Positional matcher for the styled-span sync name (parser.py:39). -/
def spanNameAt (cs : List Char) : Option String := do
  let r1 ← dropLit "<span style=\"font-weight:600; color:gray;\">".data cs
  let (g, r2) ← runOf (fun c => c ≠ '<') r1
  let _ ← dropLit "</span>".data r2
  some (String.mk g)

/-- Positional matcher for the bare date pattern (parser.py:44). -/
def dateAt (cs : List Char) : Option String := do
  let (d, _) ← slashDate cs
  some (String.mk d)

/-- Positional matcher for `(\d+:\d+:\d+ \w+)</span>` (parser.py:49). -/
def startTimeAt (cs : List Char) : Option String := do
  let (t, r1) ← ampmTime cs
  let _ ← dropLit "</span>".data r1
  some (String.mk t)

/-- Positional matcher for a timestamp table cell (parser.py:54),
returning the group and the rest of the input after the match. -/
def tdAt (cs : List Char) : Option (String × List Char) := do
  let r1 ← dropLit "<td valign=\"top\">".data cs
  let (t, r2) ← ampmTime r1
  let r3 ← dropLit "</td>".data r2
  some (String.mk t, r3)

/-- Positional matcher for `Creating file &quot;([^&]+)&quot;` (parser.py:55). -/
def quotAt (cs : List Char) : Option (String × List Char) := do
  let r1 ← dropLit "Creating file &quot;".data cs
  let (g, r2) ← runOf (fun c => c ≠ '&') r1
  let r3 ← dropLit "&quot;".data r2
  some (String.mk g, r3)

/-- `re.findall`: scan left to right, resuming after each match end.
The fuel starts at the input length; every successful positional match
consumes at least one character so the fuel never runs out first. -/
def findAllAux (f : List Char → Option (String × List Char)) :
    Nat → List Char → List String
  | 0, _ => []
  | _ + 1, [] => []
  | fuel + 1, c :: rest =>
    match f (c :: rest) with
    | some (a, rest2) => a :: findAllAux f fuel rest2
    | none => findAllAux f fuel rest

/-- `re.findall` over a whole input. -/
def findAll (f : List Char → Option (String × List Char)) (cs : List Char) :
    List String :=
  findAllAux f cs.length cs

/-! ## Data model (`SyncRun`, `SyncOperation`, `FileEvent`) -/

/-- One file-creation event (`files_created` entry in parser.py). -/
structure FileEventD where
  timestamp : String
  file_path : String
deriving DecidableEq, Repr

/-- One folder-pair synchronization block. -/
structure SyncOpD where
  source : String
  destination : String
  files_created : List FileEventD
deriving DecidableEq, Repr

/-- The dictionary built by `parse_sync_log` (parser.py:26-36 and 75-85);
all optional fields start unset and the operation list starts empty. -/
structure SyncRunData where
  sync_name : Option String := none
  date : Option String := none
  start_time : Option String := none
  items_processed : Option Nat := none
  total_size : Option String := none
  total_time : Option String := none
  comparison_items : Option Nat := none
  comparison_time : Option String := none
  sync_operations : List SyncOpD := []
deriving DecidableEq, Repr

/-- The freshly initialised run record. -/
def initialRun : SyncRunData := {}

/-- Header-metadata update (parser.py:97-99). -/
def setHeader (st : SyncRunData) (n d t : String) : SyncRunData :=
  { st with sync_name := some n, date := some d, start_time := some t }

/-- Comparison-summary update (parser.py:117-118); Python strips the commas
from the `[\d,]+` group before `int(...)`. -/
def setComparison (st : SyncRunData) (g : List Char) (t : String) : SyncRunData :=
  { st with comparison_items := some (natOfDigits (g.filter Char.isDigit)),
            comparison_time := some t }

/-- Open a new sync operation (parser.py:128-133). -/
def addOp (st : SyncRunData) (src dst : String) : SyncRunData :=
  { st with sync_operations := st.sync_operations ++ [⟨src, dst, []⟩] }

/-- Append a file event to the most recently opened operation
(parser.py:145-148); a no-op when no operation exists. -/
def appendEventToLast (st : SyncRunData) (ev : FileEventD) : SyncRunData :=
  match st.sync_operations.getLast? with
  | some op =>
    { st with sync_operations :=
        st.sync_operations.dropLast ++
          [{ op with files_created := op.files_created ++ [ev] }] }
  | none => st

/-- The summary branches guarded by `startswith` (parser.py:104-112);
they update the state and fall through (no `continue`). -/
def itemsTotalStep (line : String) (st : SyncRunData) : SyncRunData :=
  if pyStartsWith line "|    Items processed:" then
    match itemsFind line.data with
    | some (cnt, size) =>
      { st with items_processed := some cnt, total_size := some size }
    | none => st
  else if pyStartsWith line "|    Total time:" then
    match totalTimeFind line.data with
    | some t => { st with total_time := some t }
    | none => st
  else st

/-- The creating-file branch (parser.py:138-148): the event is recorded only
when the pattern matches, an operation is already open, and the line starts
with a bracketed timestamp. -/
def creatingStep (line : String) (st : SyncRunData) : SyncRunData :=
  match creatingFind line.data with
  | some fp =>
    if st.sync_operations.isEmpty then st
    else
      match timestampMatch line.data with
      | some ts => appendEventToLast st ⟨ts, fp⟩
      | none => st
  | none => st

/-- Classification of one (stripped) line in the plain-text scan. -/
inductive StepOut where
  /-- the line is consumed on its own with the given next state -/
  | c1 (st : SyncRunData)
  /-- the line holds the folder-pair marker: consume the next two lines -/
  | op (st : SyncRunData)
  /-- the comparison pattern matched with an all-comma count: `int('')`
  raises `ValueError` (parser.py:117) -/
  | err
deriving DecidableEq, Repr

/-- One iteration of the plain-text scan loop (parser.py:88-149), in branch
order: blank skip, header, items/total summary (fall-through), comparison,
folder-pair marker, creating-file. -/
def lineClass (line : String) (st : SyncRunData) : StepOut :=
  if line = "" then .c1 st
  else
    match headerMatch line.data with
    | some (n, d, t) => .c1 (setHeader st n d t)
    | none =>
      let st1 := itemsTotalStep line st
      match comparisonFind line.data with
      | some (g, t) =>
        if (g.filter Char.isDigit).isEmpty then .err
        else .c1 (setComparison st1 g t)
      | none =>
        if containsMarker line then .op st1
        else .c1 (creatingStep line st1)

/-- The whole plain-text scan (parser.py:87-149).  When a marker line is not
followed by at least two lines the guard `i + 2 < len(lines)` fails and
control falls through to the creating-file check on the marker line itself,
then advances one line. -/
def processLines : List String → SyncRunData → Except Unit SyncRunData
  | [], st => .ok st
  | l :: rest, st =>
    match lineClass (pyStrip l) st with
    | .err => .error ()
    | .c1 st' => processLines rest st'
    | .op st1 =>
      match rest with
      | a :: b :: rest2 => processLines rest2 (addOp st1 (pyStrip a) (pyStrip b))
      | [] => .ok (creatingStep (pyStrip l) st1)
      | [a] => processLines [a] (creatingStep (pyStrip l) st1)

/-- The HTML branch of `parse_sync_log` (parser.py:24-69): independent regex
extraction, positional pairing of timestamps with paths (`zip` truncation),
and a single synthetic operation with empty source and destination. -/
def parseHtmlModel (content : String) : SyncRunData :=
  let cs := content.data
  let files :=
    ((findAll tdAt cs).zip (findAll quotAt cs)).map fun p => FileEventD.mk p.1 p.2
  { sync_name := searchFrom spanNameAt cs
    date := searchFrom dateAt cs
    start_time := searchFrom startTimeAt cs
    sync_operations := [⟨"", "", files⟩] }

/-- `parse_sync_log` over already-read text, with the format selected by the
file extension (`.html` → markup, otherwise plain text).  The `Except`
error is the `ValueError` escaping from `int` on an all-comma comparison
count; no other statement of the function can raise on readable text. -/
def parseSyncLog (isHtml : Bool) (content : String) : Except Unit SyncRunData :=
  if isHtml then .ok (parseHtmlModel content)
  else processLines (splitlinesStr content) initialRun

/-! ## Classifier and record reducer -/

/-- The fixed extension table of `get_file_type` (parser.py:259-264),
in Python dict insertion order. -/
def fileTypesTable : List (String × List String) :=
  [("Image", [".png", ".jpeg", ".jpg", ".bmp", ".tiff", ".tif", ".exr", ".tga", ".dpx"]),
   ("Video", [".mov"]),
   ("Audio", [".mp3", ".wav", ".aiff"]),
   ("3D", [".abc", ".fbx", ".obj"])]

/-- `get_file_type` (parser.py:248-269): first table entry whose extension
list contains the lowercased input, else `Unknown`. -/
def get_file_type (extension : String) : String :=
  match fileTypesTable.find? (fun p => p.2.contains (pyLower extension)) with
  | some p => p.1
  | none => "Unknown"

/-- Every extension appearing in the fixed table. -/
def tableExtensions : List String := (fileTypesTable.map (fun p => p.2)).flatten

/-- One reconciled row destined for a sink. -/
structure FileRecord where
  timestamp : String
  file_type : String
  sectionVal : String
  file_name : String
deriving DecidableEq, Repr

/-- Python `str.split(sep)` for a one-character separator: `"".split`
yields `[""]` and adjacent separators yield empty fields. -/
def splitOnChar (sep : Char) : List Char → List (List Char)
  | [] => [[]]
  | c :: rest =>
    let r := splitOnChar sep rest
    if c = sep then [] :: r
    else (c :: r.headD []) :: r.tail

/-- `file_path.split('\\')[-1]` (parser.py:287). -/
def fileNameOf (file_path : String) : String :=
  String.mk ((splitOnChar '\\' file_path.data).getLastD [])

/-- Extension extraction (parser.py:290): everything after the last dot,
with the dot restored, or empty when the name has no dot. -/
def extOf (file_name : String) : String :=
  let parts := splitOnChar '.' file_name.data
  if parts.length > 1 then String.mk ('.' :: parts.getLastD []) else ""

/-- Section extraction (parser.py:294-299): the path segment after the first
`VideoFile` segment, or empty when absent or last. -/
def sectionOf (file_path : String) : String :=
  let parts := splitOnChar '\\' file_path.data
  match parts.findIdx? (fun p => p = "VideoFile".data) with
  | some i => String.mk (parts.getD (i + 1) [])
  | none => ""

/-- The record built for one file event (parser.py:289-306). -/
def recordOfEvent (ev : FileEventD) : FileRecord :=
  let name := fileNameOf ev.file_path
  { timestamp := ev.timestamp
    file_type := get_file_type (extOf name)
    sectionVal := sectionOf ev.file_path
    file_name := name }

/-- All file events of a run, operations in order, events in order. -/
def allEvents (pd : SyncRunData) : List FileEventD :=
  (pd.sync_operations.map (fun op => op.files_created)).flatten

/-- One step of `extract_unique_files` (parser.py:283-306): a Python dict
keyed by file name preserves insertion order and
`if file_name not in unique_files` keeps the first-seen record. -/
def insertRecord (acc : List FileRecord) (ev : FileEventD) : List FileRecord :=
  let r := recordOfEvent ev
  if acc.any (fun x => x.file_name = r.file_name) then acc else acc ++ [r]

/-- The fold of `extract_unique_files` over all events. -/
def extract_unique_files (pd : SyncRunData) : List FileRecord :=
  (allEvents pd).foldl insertRecord []

/-! ## The local CSV sink (`append_to_csv`, parser.py:154-245)

A sink is `none` when the file is absent and `some rows` when present; a
row is the list of its cells.  `csv.DictReader` reads the first row as the
fieldnames and skips blank rows; `csv.DictWriter` with the canonical
fieldnames raises `ValueError` when a row dictionary holds a key outside
them (including the `None` rest-key produced by an over-long row) and
writes missing values as the empty string. -/

/-- One CSV or spreadsheet row. -/
abbrev Row := List String

/-- The fixed header (parser.py:169). -/
def headerRow : Row := ["Date", "Time", "Type", "Section", "File Name"]

/-- The separator sentinel row (parser.py:211, google_sheets.py:350). -/
def breakRow : Row := ["--- New Log Entry ---", "", "", "", ""]

/-- The row written for one reduced record (parser.py:200-207);
`csv.DictWriter` renders Python `None` (an unset date) as the empty cell. -/
def rowOfRecord (date : Option String) (r : FileRecord) : Row :=
  [date.getD "", r.timestamp, r.file_type, r.sectionVal, r.file_name]

/-- The block of rows a call appends (parser.py:199-211): one row per unique
file, plus the sentinel row when `add_breaks` is set. -/
def newRowsOf (pd : SyncRunData) (add_breaks : Bool) : List Row :=
  let base := (extract_unique_files pd).map (rowOfRecord pd.date)
  if add_breaks then base ++ [breakRow] else base

/-- `csv.DictWriter.writerow` for a dictionary given as key/value pairs
(later duplicate keys win, as in a Python dict built by `zip`): error when a
key lies outside the canonical fieldnames, else the values in header order,
absent keys rendered as empty cells. -/
def writerRowFromPairs (pairs : List (String × String)) : Except Unit Row :=
  if pairs.all (fun kv => headerRow.contains kv.1) then
    .ok (headerRow.map fun h =>
      ((pairs.reverse.find? (fun kv => kv.1 = h)).map (fun kv => kv.2)).getD "")
  else .error ()

/-- `csv.DictReader` row conversion against fieldnames `F`: the zipped
key/value pairs, and whether the row was longer than `F` (which sets the
`None` rest-key and later makes the writer raise). -/
def readerRow (fieldnames : Row) (r : Row) : List (String × String) × Bool :=
  (fieldnames.zip r, decide (fieldnames.length < r.length))

/-- Round-trip of one existing row through `DictReader`/`DictWriter`. -/
def rewriteRow (fieldnames : Row) (r : Row) : Except Unit Row :=
  let p := readerRow fieldnames r
  if p.2 then .error () else writerRowFromPairs p.1

/-- `append_to_csv` (parser.py:154-245) as a function from the prior sink
contents to the new contents (or the `ValueError` escaping the rewrite).
The prepend read-all/rewrite path runs only when the file exists and is
non-empty (parser.py:213); otherwise the file is opened in append mode and
the header is written only when the file was absent or empty
(parser.py:231-239). -/
def appendToCsvModel (pd : SyncRunData) (prepend add_breaks : Bool)
    (sink : Option (List Row)) : Except Unit (List Row) :=
  let new_rows := newRowsOf pd add_breaks
  match sink with
  | some (fieldnames :: existingRaw) =>
    if prepend then do
      let existingOut ←
        (existingRaw.filter (fun r => r ≠ [])).mapM (rewriteRow fieldnames)
      .ok (headerRow :: new_rows ++ existingOut)
    else .ok ((fieldnames :: existingRaw) ++ new_rows)
  | some [] => .ok (headerRow :: new_rows)
  | none => .ok (headerRow :: new_rows)

/-! ## The remote sheet sink (`GoogleSheetsManager.upload_data`,
google_sheets.py:221-450)

The sheet is a list of rows of its `A:E` range.  Reading range `A:A`
returns one singleton cell list per row with a nonempty first cell, an
empty list for an empty first cell, with trailing empty entries trimmed —
`has_header` and the append position are computed from that column
(google_sheets.py:296-307, 414).  All API calls are assumed to succeed and
the target sheet id to resolve, so prepend takes the `insertDimension`
path (google_sheets.py:324-362). -/

/-- The `A:A` values read for a sheet. -/
def colAValues (sheet : List Row) : List (List String) :=
  ((sheet.map fun r => if r.headD "" = "" then ([] : List String) else [r.headD ""]).reverse.dropWhile
    (fun x => x = [])).reverse

/-- `values().update` at 1-based row `start`: overwrite rows from `start`,
extending (and padding with empty rows) as the grid grows. -/
def sheetUpdate (sheet : List Row) (start : Nat) (vals : List Row) : List Row :=
  let padded := sheet ++ List.replicate (start - 1 - sheet.length) ([] : Row)
  padded.take (start - 1) ++ vals ++ padded.drop (start - 1 + vals.length)

/-- `insertDimension` of `n` rows after the header row
(google_sheets.py:329-345). -/
def insertRowsAt1 (sheet : List Row) (n : Nat) : List Row :=
  sheet.take 1 ++ List.replicate n ([] : Row) ++ sheet.drop 1

/-- `upload_data` (google_sheets.py:221-450) over the sheet contents:
`none` models the early `(False, "No data to upload")` return that leaves
the sheet untouched. -/
def uploadDataModel (pd : SyncRunData) (prepend add_breaks : Bool)
    (sheet : List Row) : Option (List Row) :=
  let ufs := extract_unique_files pd
  if ufs.isEmpty then none
  else
    let new_rows := ufs.map (rowOfRecord pd.date)
    let num_new := new_rows.length + (if add_breaks then 1 else 0)
    let colA := colAValues sheet
    let has_header := !colA.isEmpty && !(colA.headD []).isEmpty
    let sheet1 := if has_header then sheet else sheetUpdate sheet 1 [headerRow]
    let existingCount := if has_header then colA.length else 1
    if prepend then
      let sheet2 := insertRowsAt1 sheet1 num_new
      let all_new := new_rows ++ (if add_breaks then [breakRow] else [])
      some (sheetUpdate sheet2 2 all_new)
    else
      let withBreak := add_breaks && decide (existingCount > 1)
      let sheet2 :=
        if withBreak then sheetUpdate sheet1 (existingCount + 1) [breakRow]
        else sheet1
      let lastRow := if withBreak then existingCount + 2 else existingCount + 1
      some (sheetUpdate sheet2 lastRow new_rows)

/-! ## The orchestrator (`LogFileHandler.on_created`, handler.py:35-64)

The whole pipeline body sits in one `try` block: parse, `append_to_csv`
(which re-raises any internal exception, parser.py:245), the clipboard
store, then the sheets callback.  The sheets callback is
`upload_to_google_sheets` (main.py:401-421), which catches every exception
internally and never raises into the handler.  Sink outcomes are abstract
parameters standing for environmental I/O success or failure. -/

/-- Which pipeline stages ran, and whether an exception escaped the
handler. -/
structure OrchOutcome where
  csvAttempted : Bool
  stored : Bool
  sheetsAttempted : Bool
  raisedOut : Bool
deriving DecidableEq, Repr

/-- The sheets callback never lets an exception escape (main.py:420-421). -/
def uploadWrapperRaises (_sheetsResult : Except Unit Unit) : Bool := false

/-- `on_created` control flow (handler.py:42-64) for a relevant log file:
a raise from `append_to_csv` jumps to the handler's `except` clause,
skipping the store and the sheets callback; otherwise the sheets callback
runs exactly when one is configured, and its own failures are swallowed. -/
def onCreatedModel (csvResult sheetsResult : Except Unit Unit)
    (sheetsConfigured : Bool) : OrchOutcome :=
  match csvResult with
  | .error _ => { csvAttempted := true, stored := false,
                  sheetsAttempted := false, raisedOut := false }
  | .ok _ =>
    { csvAttempted := true, stored := true,
      sheetsAttempted := sheetsConfigured,
      raisedOut := sheetsConfigured && uploadWrapperRaises sheetsResult }

/-! ## Specification-side helpers and concrete fixtures -/

deriving instance DecidableEq for Except

/-- Keep the first occurrence of every name, preserving positions; `seen`
holds the names already emitted. -/
def firstKeysAux : List String → List String → List String
  | [], _ => []
  | n :: rest, seen =>
    if n ∈ seen then firstKeysAux rest seen
    else n :: firstKeysAux rest (n :: seen)

/-- First-occurrence deduplication of a name sequence. -/
def firstKeys (l : List String) : List String := firstKeysAux l []

/-- A line on which the comparison pattern matches with a count consisting
solely of commas, making `int(...)` raise `ValueError` (parser.py:117). -/
def badCompLine (line : String) : Bool :=
  match comparisonFind line.data with
  | some (g, _) => (g.filter Char.isDigit).isEmpty
  | none => false

/-- A line matching none of the scan's patterns (blank lines included). -/
def noStructure (line : String) : Bool :=
  (headerMatch line.data).isNone &&
  !(pyStartsWith line "|    Items processed:") &&
  !(pyStartsWith line "|    Total time:") &&
  (comparisonFind line.data).isNone &&
  !(containsMarker line) &&
  (creatingFind line.data).isNone

/-- A pre-existing data row used in concrete instances. -/
def cexRowOld : Row := ["9/12/2025", "2:00:00 PM", "Image", "", "old.png"]

/-- A parsed run with a single created `.mov` file. -/
def samplePd : SyncRunData :=
  { date := some "9/13/2025",
    sync_operations := [⟨"s", "d", [⟨"1:00:00 PM", "C:\\a\\test.mov"⟩]⟩] }

/-- The sink row `samplePd` produces. -/
def sampleNewRow : Row := ["9/13/2025", "1:00:00 PM", "Video", "", "test.mov"]

/-- A run with two events whose paths share the final component. -/
def dupNamePd : SyncRunData :=
  { date := some "9/13/2025",
    sync_operations :=
      [⟨"s", "d", [⟨"1:00:00 PM", "C:\\a\\x.mov"⟩, ⟨"2:00:00 PM", "C:\\b\\x.mov"⟩]⟩] }

/-- An HTML fragment with two timestamp cells and one creating-file marker. -/
def htmlTwoTimesOneFile : String :=
  "<td valign=\"top\">2:30:20 PM</td><td valign=\"top\">2:30:25 PM</td>Creating file &quot;C:\\x\\a.mov&quot;"

/-- A plain-text line that both matches the header pattern and contains the
folder-pair marker. -/
def markerHeaderLine : String :=
  "A 1/1/1 [1:1:1 AM] Synchronizing folder pair: Update >"

/-! ## Claim C8 — sink independence in the orchestrator -/

/-- Claim C8, counterexample: with both sinks configured and the local CSV
sink's reconcile raising, the remote sheet sink is NOT invoked — the
handler's single `try` block aborts to its `except` clause
(handler.py:42-64), contradicting the claim that each sink is attempted
independently. -/
theorem C8_cex_local_failure_skips_remote :
    ¬ ((onCreatedModel (Except.error ()) (Except.ok ()) true).sheetsAttempted = true) := by
  decide

/-- Claim C8 (amended): a remote-sink failure is non-fatal (the upload
wrapper catches it, and the local sink has already run, first), and no sink
failure crashes the watcher; but a local CSV failure aborts the rest of the
pipeline, so the remote sink is not attempted after it. -/
theorem C8_sink_failure_handling :
    ∀ (sheetsResult : Except Unit Unit) (cfg : Bool),
      (onCreatedModel (Except.error ()) sheetsResult cfg).sheetsAttempted = false ∧
      (onCreatedModel (Except.error ()) sheetsResult cfg).raisedOut = false ∧
      (onCreatedModel (Except.ok ()) sheetsResult cfg).sheetsAttempted = cfg ∧
      (onCreatedModel (Except.ok ()) sheetsResult cfg).stored = true ∧
      (onCreatedModel (Except.ok ()) sheetsResult cfg).raisedOut = false := by
  intro sr cfg
  simp [onCreatedModel, uploadWrapperRaises]

/-! ## Claim C9 — classifier totality and case insensitivity -/

/-- Claim C9: classification is total — every extension of the fixed table
classifies identically to its uppercased form, every extension whose
lowercase form lies outside the table maps to `Unknown`, and the empty
extension maps to `Unknown`. -/
theorem C9_classifier_total_case_insensitive :
    (∀ ext ∈ tableExtensions, get_file_type ext = get_file_type (pyUpper ext)) ∧
    (∀ ext : String, pyLower ext ∉ tableExtensions → get_file_type ext = "Unknown") ∧
    get_file_type "" = "Unknown" := by
  refine ⟨by decide, ?_, by decide⟩
  intro ext h
  unfold get_file_type
  have hnone : fileTypesTable.find? (fun p => p.2.contains (pyLower ext)) = none := by
    rw [List.find?_eq_none]
    intro p hp hc
    exact h (List.mem_flatten.mpr
      ⟨p.2, List.mem_map_of_mem (fun q => q.2) hp,
        by simpa using hc⟩)
  rw [hnone]

/-- Witness for C9 at the concrete extensions `.png` and `.zzz`. -/
theorem C9_witness :
    (".png" ∈ tableExtensions ∧ get_file_type ".png" = get_file_type (pyUpper ".png")) ∧
    (pyLower ".zzz" ∉ tableExtensions ∧ get_file_type ".zzz" = "Unknown") :=
  ⟨⟨by decide, C9_classifier_total_case_insensitive.1 ".png" (by decide)⟩,
   ⟨by decide, C9_classifier_total_case_insensitive.2.1 ".zzz" (by decide)⟩⟩

/-! ## Claim C10 — prepend and append agree on a fresh sink -/

/-- Claim C10: on an absent or zero-size sink, `append_to_csv` with
`prepend=true` produces exactly the same contents as with `prepend=false`,
namely the header row followed by the new rows in insertion order — the
read-all/rewrite path requires an existing non-empty file. -/
theorem C10_fresh_sink_prepend_equals_append :
    ∀ (pd : SyncRunData) (add_breaks : Bool) (sink : Option (List Row)),
      sink = none ∨ sink = some [] →
      appendToCsvModel pd true add_breaks sink =
        appendToCsvModel pd false add_breaks sink ∧
      appendToCsvModel pd true add_breaks sink =
        Except.ok (headerRow :: newRowsOf pd add_breaks) := by
  rintro pd b sink (rfl | rfl) <;> exact ⟨rfl, rfl⟩

/-- Witness for C10 on the absent sink with `samplePd`. -/
theorem C10_witness :
    (none : Option (List Row)) = none ∧
    appendToCsvModel samplePd true false none =
      appendToCsvModel samplePd false false none ∧
    appendToCsvModel samplePd true false none =
      Except.ok (headerRow :: newRowsOf samplePd false) :=
  ⟨rfl,
   (C10_fresh_sink_prepend_equals_append samplePd false none (Or.inl rfl)).1,
   (C10_fresh_sink_prepend_equals_append samplePd false none (Or.inl rfl)).2⟩

/-! ## Claim C7 — HTML positional pairing with zip truncation -/

/-- Claim C7: in the markup format the Nth timestamp cell pairs with the
Nth creating-file path, pairing stops at the shorter sequence, and all
paired events land in one synthetic operation with empty source and
destination; concretely, two timestamp cells with one path marker yield
exactly one file event. -/
theorem C7_html_positional_pairing :
    (∀ content : String,
      (parseHtmlModel content).sync_operations =
        [⟨"", "",
          ((findAll tdAt content.data).zip (findAll quotAt content.data)).map
            (fun p => FileEventD.mk p.1 p.2)⟩] ∧
      ((parseHtmlModel content).sync_operations.map
          (fun op => op.files_created.length)) =
        [min (findAll tdAt content.data).length (findAll quotAt content.data).length]) ∧
    (parseHtmlModel htmlTwoTimesOneFile).sync_operations =
      [⟨"", "", [⟨"2:30:20 PM", "C:\\x\\a.mov"⟩]⟩] := by
  refine ⟨fun content => ⟨rfl, ?_⟩, by decide⟩
  simp [parseHtmlModel, List.length_zip]

/-! ## Counterexamples for claims C1-C4 and C6 -/

/-- Claim C1, counterexample: the claim also quantifies over a sink holding
data rows but no header; in append mode `append_to_csv` writes no header
there (the file exists and is non-empty, parser.py:235), so the sink ends
with zero header rows, not exactly one. -/
theorem C1_cex_headerless_append_leaves_no_header :
    appendToCsvModel initialRun false false (some [cexRowOld]) =
      Except.ok [cexRowOld] ∧
    List.count headerRow [cexRowOld] ≠ 1 :=
  ⟨rfl, by decide⟩

/-- Claim C2, counterexample: the local CSV sink in append mode with
`add_breaks=true` and one pre-existing data row places the sentinel AFTER
the new block (parser.py:210-211 appends it to `new_rows`), not before it
as the claim states. -/
theorem C2_cex_local_append_separator_after_new_block :
    appendToCsvModel samplePd false true (some [headerRow, cexRowOld]) =
      Except.ok [headerRow, cexRowOld, sampleNewRow, breakRow] ∧
    [headerRow, cexRowOld, sampleNewRow, breakRow] ≠
      [headerRow, cexRowOld, breakRow, sampleNewRow] :=
  ⟨by decide, by decide⟩

/-- Claim C3, counterexample: a readable line whose comparison pattern
matches with the count group `","` makes `int(''.join())` raise
`ValueError` (parser.py:117), so `parse` does raise on structurally
invalid content. -/
theorem C3_cex_comparison_comma_count_raises :
    parseSyncLog false
        "Info: Comparison finished: , items found – Time elapsed: 0:00:00" =
      Except.error () := by
  decide

/-- Claim C4, counterexample: with two header-shaped lines the scan
overwrites the header fields at the second line (parser.py:97-99 assigns
unconditionally), so the first match does NOT win. -/
theorem C4_cex_second_header_overwrites :
    (parseSyncLog false "A 1/1/1 [1:1:1 AM]\nB 2/2/2 [2:2:2 PM]").map
        (fun pd => pd.sync_name) = Except.ok (some "B") ∧
    ¬ ((parseSyncLog false "A 1/1/1 [1:1:1 AM]\nB 2/2/2 [2:2:2 PM]").map
        (fun pd => pd.sync_name) = Except.ok (some "A")) :=
  ⟨by decide, by decide⟩

/-- Claim C6, counterexample: a line that contains the folder-pair marker
but also matches the header pattern is consumed by the header branch's
`continue` (parser.py:96-101), so no operation is opened even though two
lines follow. -/
theorem C6_cex_header_preempts_marker :
    containsMarker (pyStrip markerHeaderLine) = true ∧
    (parseSyncLog false (markerHeaderLine ++ "\nC:\\S\nC:\\D")).map
        (fun pd => pd.sync_operations) = Except.ok [] :=
  ⟨by decide, by decide⟩

/-! ## Claim C5 — first-seen deduplication in the record reducer -/

/-- The reduced record's name is the path's final component. -/
theorem recordOfEvent_name (ev : FileEventD) :
    (recordOfEvent ev).file_name = fileNameOf ev.file_path := rfl

/-- `firstKeysAux` depends on its seen argument only through membership. -/
theorem firstKeysAux_congr :
    ∀ (l : List String) (s1 s2 : List String),
      (∀ x, x ∈ s1 ↔ x ∈ s2) → firstKeysAux l s1 = firstKeysAux l s2 := by
  intro l
  induction l with
  | nil => intro s1 s2 _; rfl
  | cons n rest ih =>
    intro s1 s2 h
    simp only [firstKeysAux]
    by_cases hn : n ∈ s1
    · rw [if_pos hn, if_pos ((h n).mp hn)]
      exact ih s1 s2 h
    · rw [if_neg hn, if_neg (fun hc => hn ((h n).mpr hc))]
      refine congrArg (n :: ·) (ih (n :: s1) (n :: s2) ?_)
      intro x
      simp only [List.mem_cons]
      exact or_congr Iff.rfl (h x)

/-- The membership test of `insertRecord` as name-list membership. -/
theorem insertRecord_any_iff (acc : List FileRecord) (ev : FileEventD) :
    (acc.any (fun x => x.file_name = (recordOfEvent ev).file_name) = true) ↔
      (recordOfEvent ev).file_name ∈ acc.map (fun r => r.file_name) := by
  constructor
  · intro h
    obtain ⟨x, hx, hname⟩ := List.any_eq_true.mp h
    exact List.mem_map.mpr ⟨x, hx, of_decide_eq_true hname⟩
  · intro h
    obtain ⟨x, hx, hname⟩ := List.mem_map.mp h
    exact List.any_eq_true.mpr ⟨x, hx, decide_eq_true hname⟩

/-- Names of the reduction fold: first occurrences in order, with the names
already in the accumulator as the seen set. -/
theorem foldl_insertRecord_names :
    ∀ (evs : List FileEventD) (acc : List FileRecord),
      (evs.foldl insertRecord acc).map (fun r => r.file_name) =
        acc.map (fun r => r.file_name) ++
          firstKeysAux (evs.map (fun ev => fileNameOf ev.file_path))
            (acc.map (fun r => r.file_name)) := by
  intro evs
  induction evs with
  | nil => intro acc; simp [firstKeysAux]
  | cons e rest ih =>
    intro acc
    simp only [List.foldl_cons, List.map_cons, firstKeysAux]
    by_cases h : fileNameOf e.file_path ∈ acc.map (fun r => r.file_name)
    · have hany : acc.any (fun x => x.file_name = (recordOfEvent e).file_name) = true :=
        (insertRecord_any_iff acc e).mpr h
      rw [if_pos h]
      have hstep : insertRecord acc e = acc := by
        simp only [insertRecord]
        rw [if_pos hany]
      rw [hstep, ih acc]
    · have hany : ¬ (acc.any (fun x => x.file_name = (recordOfEvent e).file_name) = true) :=
        fun hc => h ((insertRecord_any_iff acc e).mp hc)
      rw [if_neg h]
      have hstep : insertRecord acc e = acc ++ [recordOfEvent e] := by
        simp only [insertRecord]
        rw [if_neg hany]
      rw [hstep, ih (acc ++ [recordOfEvent e])]
      simp only [List.map_append, List.map_cons, List.map_nil, List.append_assoc,
        List.cons_append, List.nil_append]
      refine congrArg (acc.map (fun r => r.file_name) ++ ·) ?_
      refine congrArg (fileNameOf e.file_path :: ·) ?_
      refine firstKeysAux_congr _ _ _ ?_
      intro x
      simp only [List.mem_append, List.mem_singleton, List.mem_cons]
      constructor
      · rintro (hx | hx | hx)
        · exact Or.inr hx
        · exact Or.inl hx
        · cases hx
      · rintro (hx | hx)
        · exact Or.inr (Or.inl hx)
        · exact Or.inl hx

/-- Every record the fold produces is either inherited from the accumulator
or built from the first event carrying its name. -/
theorem foldl_insertRecord_first :
    ∀ (evs : List FileEventD) (acc : List FileRecord) (r : FileRecord),
      r ∈ evs.foldl insertRecord acc →
      r ∈ acc ∨
        ((∀ a ∈ acc, a.file_name ≠ r.file_name) ∧
          ∃ ev, evs.find? (fun e => fileNameOf e.file_path == r.file_name) = some ev ∧
            r = recordOfEvent ev) := by
  intro evs
  induction evs with
  | nil => intro acc r hr; exact Or.inl hr
  | cons e rest ih =>
    intro acc r hr
    simp only [List.foldl_cons] at hr
    by_cases hany : acc.any (fun x => x.file_name = (recordOfEvent e).file_name) = true
    · have hstep : insertRecord acc e = acc := by
        simp only [insertRecord]; rw [if_pos hany]
      rw [hstep] at hr
      rcases ih acc r hr with h | ⟨hno, ev, hfind, hev⟩
      · exact Or.inl h
      · refine Or.inr ⟨hno, ev, ?_, hev⟩
        have hne : ¬ ((fun e => fileNameOf e.file_path == r.file_name) e = true) := by
          intro hc
          obtain ⟨a, ha, hname⟩ := List.any_eq_true.mp hany
          refine hno a ha ?_
          have h1 : a.file_name = (recordOfEvent e).file_name := of_decide_eq_true hname
          rw [h1, recordOfEvent_name]
          exact eq_of_beq hc
        exact (@List.find?_cons_of_neg _ (fun e => fileNameOf e.file_path == r.file_name)
          e rest hne).trans hfind
    · have hstep : insertRecord acc e = acc ++ [recordOfEvent e] := by
        simp only [insertRecord]; rw [if_neg hany]
      rw [hstep] at hr
      rcases ih (acc ++ [recordOfEvent e]) r hr with h | ⟨hno, ev, hfind, hev⟩
      · rcases List.mem_append.mp h with h | h
        · exact Or.inl h
        · have hre : r = recordOfEvent e := List.mem_singleton.mp h
          refine Or.inr ⟨?_, e, ?_, hre⟩
          · intro a ha hc
            apply hany
            refine List.any_eq_true.mpr ⟨a, ha, decide_eq_true ?_⟩
            rw [hc, hre]
          · have hpe : ((fun e => fileNameOf e.file_path == r.file_name) e = true) := by
              rw [hre, recordOfEvent_name]
              exact beq_self_eq_true _
            exact @List.find?_cons_of_pos _ (fun e => fileNameOf e.file_path == r.file_name)
              e rest hpe
      · have hne : ¬ ((fun e => fileNameOf e.file_path == r.file_name) e = true) := by
          intro hc
          have hmem : recordOfEvent e ∈ acc ++ [recordOfEvent e] := by
            exact List.mem_append.mpr (Or.inr (List.mem_singleton.mpr rfl))
          refine hno (recordOfEvent e) hmem ?_
          rw [recordOfEvent_name]
          exact eq_of_beq hc
        refine Or.inr ⟨fun a ha => hno a (List.mem_append.mpr (Or.inl ha)), ev, ?_, hev⟩
        exact (@List.find?_cons_of_neg _ (fun e => fileNameOf e.file_path == r.file_name)
          e rest hne).trans hfind

/-- Claim C5: `extract_unique_files` keeps at most one record per file
name: the output names are the event names deduplicated keeping first
occurrences in their original positions, and every output record is built
from the first event carrying its name, so for two events with the same
final path component only the first-encountered timestamp is retained and
the later duplicate is dropped. -/
theorem C5_reduce_first_seen_wins :
    ∀ pd : SyncRunData,
      ((extract_unique_files pd).map (fun r => r.file_name) =
        firstKeys ((allEvents pd).map (fun ev => fileNameOf ev.file_path))) ∧
      (∀ r ∈ extract_unique_files pd,
        ∃ ev, (allEvents pd).find?
            (fun e => fileNameOf e.file_path == r.file_name) = some ev ∧
          r = recordOfEvent ev) := by
  intro pd
  constructor
  · have h := foldl_insertRecord_names (allEvents pd) []
    simpa [extract_unique_files, firstKeys] using h
  · intro r hr
    have h := foldl_insertRecord_first (allEvents pd) [] r hr
    rcases h with h | ⟨_, ev, hfind, hev⟩
    · simp at h
    · exact ⟨ev, hfind, hev⟩

/-- Witness for C5: in `dupNamePd` two events share the final component
`x.mov` with different timestamps; the reducer keeps the first event's
timestamp `1:00:00 PM`. -/
theorem C5_witness :
    (⟨"1:00:00 PM", "Video", "", "x.mov"⟩ : FileRecord) ∈ extract_unique_files dupNamePd ∧
    ∃ ev, (allEvents dupNamePd).find?
        (fun e => fileNameOf e.file_path ==
          (⟨"1:00:00 PM", "Video", "", "x.mov"⟩ : FileRecord).file_name) = some ev ∧
      (⟨"1:00:00 PM", "Video", "", "x.mov"⟩ : FileRecord) = recordOfEvent ev :=
  ⟨by decide,
   (C5_reduce_first_seen_wins dupNamePd).2 ⟨"1:00:00 PM", "Video", "", "x.mov"⟩ (by decide)⟩

/-! ## Claim C1 — header uniqueness and data preservation in the CSV sink -/

/-- A 5-column row survives the `DictReader`/`DictWriter` round trip of the
prepend path unchanged. -/
theorem rewriteRow_header (r : Row) (h : r.length = 5) :
    rewriteRow headerRow r = Except.ok r := by
  rcases r with _ | ⟨a, r⟩
  · simp at h
  rcases r with _ | ⟨b, r⟩
  · simp at h
  rcases r with _ | ⟨c, r⟩
  · simp at h
  rcases r with _ | ⟨d, r⟩
  · simp at h
  rcases r with _ | ⟨e, r⟩
  · simp at h
  rcases r with _ | ⟨f, r⟩
  · rfl
  · simp at h

/-- Rewriting a block of 5-column rows reproduces the block. -/
theorem mapM_rewriteRow (ds : List Row) (h : ∀ r ∈ ds, r.length = 5) :
    ds.mapM (rewriteRow headerRow) = Except.ok ds := by
  induction ds with
  | nil => rfl
  | cons r ds ih =>
    have h1 := rewriteRow_header r (h r (List.mem_cons_self r ds))
    have h2 := ih fun x hx => h x (List.mem_cons_of_mem r hx)
    rw [List.mapM_cons, h1, h2]
    rfl

/-- The prepend path of `append_to_csv` on a well-formed sink: header, then
the new block, then all previously persisted data rows. -/
theorem appendToCsv_prepend_wf (pd : SyncRunData) (add_breaks : Bool)
    (ds : List Row) (h5 : ∀ r ∈ ds, r.length = 5) :
    appendToCsvModel pd true add_breaks (some (headerRow :: ds)) =
      Except.ok (headerRow :: newRowsOf pd add_breaks ++ ds) := by
  have hfilter : ds.filter (fun r => r ≠ []) = ds := by
    rw [List.filter_eq_self]
    intro a ha
    have h := h5 a ha
    simp only [decide_eq_true_eq]
    intro hnil
    rw [hnil] at h
    simp at h
  simp only [appendToCsvModel, if_pos, hfilter, mapM_rewriteRow ds h5]
  rfl

/-- Claim C1 (amended): for a prior sink state that is absent,
present-but-empty, or present with the header followed by 5-column data
rows (none of which spell the header), `append_to_csv` leaves exactly one
header row and preserves every previously persisted data row in order.
(The headerless state of the original claim fails, see the
counterexample.) -/
theorem C1_header_invariant :
    ∀ (pd : SyncRunData) (prepend add_breaks : Bool),
      headerRow ∉ newRowsOf pd add_breaks →
      (appendToCsvModel pd prepend add_breaks none =
          Except.ok (headerRow :: newRowsOf pd add_breaks) ∧
        (headerRow :: newRowsOf pd add_breaks).count headerRow = 1) ∧
      (appendToCsvModel pd prepend add_breaks (some []) =
          Except.ok (headerRow :: newRowsOf pd add_breaks)) ∧
      (∀ ds : List Row, (∀ r ∈ ds, r.length = 5) → headerRow ∉ ds →
        ∃ out,
          appendToCsvModel pd prepend add_breaks (some (headerRow :: ds)) =
            Except.ok out ∧
          out.count headerRow = 1 ∧ ds.Sublist out) := by
  intro pd prepend add_breaks hnew
  have hcount : (newRowsOf pd add_breaks).count headerRow = 0 :=
    List.count_eq_zero.mpr hnew
  refine ⟨⟨?_, ?_⟩, ?_, ?_⟩
  · cases prepend <;> rfl
  · simp [List.count_cons, hcount]
  · cases prepend <;> rfl
  · intro ds h5 hds
    have hdcount : ds.count headerRow = 0 := List.count_eq_zero.mpr hds
    cases prepend
    · refine ⟨headerRow :: ds ++ newRowsOf pd add_breaks, rfl, ?_, ?_⟩
      · simp [List.count_cons, List.count_append, hcount, hdcount]
      · exact (List.sublist_append_left ds (newRowsOf pd add_breaks)).cons headerRow
    · refine ⟨headerRow :: newRowsOf pd add_breaks ++ ds,
        appendToCsv_prepend_wf pd add_breaks ds h5, ?_, ?_⟩
      · simp [List.count_cons, List.count_append, hcount, hdcount]
      · exact (List.sublist_append_right (newRowsOf pd add_breaks) ds).cons headerRow

/-- Witness for C1: appending `samplePd` to a sink holding the header and
one data row keeps one header and the old row. -/
theorem C1_witness :
    headerRow ∉ newRowsOf samplePd false ∧
    ∃ out,
      appendToCsvModel samplePd false false (some (headerRow :: [cexRowOld])) =
        Except.ok out ∧
      out.count headerRow = 1 ∧ [cexRowOld].Sublist out :=
  ⟨by decide,
   (C1_header_invariant samplePd false false (by decide)).2.2 [cexRowOld]
     (by decide) (by decide)⟩

/-! ## Claim C2 — separator placement in both sinks -/

/-- A range update starting right past the last row appends. -/
theorem sheetUpdate_append (s v : List Row) :
    sheetUpdate s (s.length + 1) v = s ++ v := by
  simp [sheetUpdate]

/-- Column `A:A` of a header-led sheet whose data rows all have a nonempty
first cell: one singleton per row, nothing trimmed. -/
theorem colAValues_wf (ds : List Row) (h : ∀ r ∈ ds, r.headD "" ≠ "") :
    colAValues (headerRow :: ds) =
      (headerRow :: ds).map (fun r => [r.headD ""]) := by
  unfold colAValues
  have hmap : (headerRow :: ds).map
      (fun r => if r.headD "" = "" then ([] : List String) else [r.headD ""]) =
      (headerRow :: ds).map (fun r => [r.headD ""]) := by
    refine List.map_congr_left ?_
    intro r hr
    rcases List.mem_cons.mp hr with rfl | hr
    · rfl
    · rw [if_neg (h r hr)]
  rw [hmap]
  have hnil : ∀ x ∈ ((headerRow :: ds).map (fun r => [r.headD ""])).reverse,
      x ≠ ([] : List String) := by
    intro x hx
    rw [List.mem_reverse] at hx
    obtain ⟨r, _, rfl⟩ := List.mem_map.mp hx
    simp
  rcases hrev : ((headerRow :: ds).map (fun r => [r.headD ""])).reverse with _ | ⟨x, xs⟩
  · have := congrArg List.reverse hrev
    simp at this
  · have hxne := hnil x (hrev ▸ List.mem_cons_self x xs)
    rw [hrev, List.dropWhile_cons, if_neg (by simp [hxne]), ← hrev,
      List.reverse_reverse]


/-- Dropping leading failures keeps a final element that fails the test. -/
theorem dropWhile_append_single (p : List String → Bool) (l : List (List String))
    (x : List String) (hx : p x = false) :
    (l ++ [x]).dropWhile p = l.dropWhile p ++ [x] := by
  induction l with
  | nil => simp [List.dropWhile_cons, hx]
  | cons a l ih =>
    by_cases ha : p a = true
    · simp [List.dropWhile_cons, ha, ih]
    · simp only [Bool.not_eq_true] at ha
      simp [List.dropWhile_cons, ha]

/-- Column `A:A` of a header-led sheet always starts with the header cell
(the trailing trim cannot reach it). -/
theorem colAValues_cons_header (ds : List Row) :
    colAValues (headerRow :: ds) =
      ["Date"] ::
        ((ds.map (fun r => if r.headD "" = "" then ([] : List String)
            else [r.headD ""])).reverse.dropWhile (fun x => x = [])).reverse := by
  unfold colAValues
  rw [List.map_cons]
  have hcell : (if List.headD headerRow "" = "" then ([] : List String)
      else [List.headD headerRow ""]) = ["Date"] := rfl
  rw [hcell, List.reverse_cons,
    dropWhile_append_single _ _ _ (by simp), List.reverse_append]
  rfl

/-- Writing `vals` right after the header exactly fills freshly inserted
empty rows. -/
theorem sheetUpdate_fill (k : Nat) (vals ds : List Row) (h : vals.length = k) :
    sheetUpdate (headerRow :: (List.replicate k ([] : Row) ++ ds)) 2 vals =
      headerRow :: (vals ++ ds) := by
  subst h
  simp [sheetUpdate]
  rw [Nat.add_comm 1 vals.length, List.drop_succ_cons,
    List.drop_left' (by simp : (List.replicate vals.length ([] : Row)).length = vals.length)]

/-- Claim C2 (amended): with `add_separator=true` and at least one new
record, prepend mode places exactly one sentinel immediately AFTER the new
block in both sinks; in append mode the remote sheet sink inserts the
sentinel immediately BEFORE the new block (and only because prior data
exists), while the local CSV sink appends it after the new block; in both
sinks the data-row count grows by N+1. -/
theorem C2_separator_amended :
    ∀ (pd : SyncRunData) (ds : List Row),
      (∀ r ∈ ds, r.length = 5) →
      extract_unique_files pd ≠ [] →
      (appendToCsvModel pd true true (some (headerRow :: ds)) =
          Except.ok (headerRow ::
            ((extract_unique_files pd).map (rowOfRecord pd.date) ++ [breakRow]) ++ ds)) ∧
      (appendToCsvModel pd false true (some (headerRow :: ds)) =
          Except.ok ((headerRow :: ds) ++
            ((extract_unique_files pd).map (rowOfRecord pd.date) ++ [breakRow]))) ∧
      (uploadDataModel pd true true (headerRow :: ds) =
          some (headerRow ::
            ((extract_unique_files pd).map (rowOfRecord pd.date) ++ [breakRow]) ++ ds)) ∧
      (ds ≠ [] → (∀ r ∈ ds, r.headD "" ≠ "") →
        uploadDataModel pd false true (headerRow :: ds) =
          some ((headerRow :: ds) ++
            breakRow :: (extract_unique_files pd).map (rowOfRecord pd.date))) := by
  intro pd ds h5 hne
  have hnotEmpty : (extract_unique_files pd).isEmpty = false := by
    rcases hx : extract_unique_files pd with _ | ⟨x, xs⟩
    · exact absurd hx hne
    · rfl
  refine ⟨?_, ?_, ?_, ?_⟩
  · have h := appendToCsv_prepend_wf pd true ds h5
    simpa [newRowsOf] using h
  · rfl
  · -- remote prepend via insertDimension
    simp only [uploadDataModel, hnotEmpty]
    simp [colAValues_cons_header ds, insertRowsAt1]
    rw [sheetUpdate_fill ((extract_unique_files pd).length + 1) _ ds (by simp)]
    simp
  · intro hds hA
    simp only [uploadDataModel, hnotEmpty]
    simp [colAValues_wf ds hA]
    have hpos : 0 < ds.length := List.length_pos.mpr hds
    rw [if_pos hpos, if_pos hpos]
    have h1 : sheetUpdate (headerRow :: ds) (ds.length + 1 + 1) [breakRow] =
        (headerRow :: ds) ++ [breakRow] := by
      have h := sheetUpdate_append (headerRow :: ds) [breakRow]
      simpa using h
    rw [h1]
    have h2 : sheetUpdate ((headerRow :: ds) ++ [breakRow]) (ds.length + 1 + 2)
        (List.map (rowOfRecord pd.date) (extract_unique_files pd)) =
        ((headerRow :: ds) ++ [breakRow]) ++
          List.map (rowOfRecord pd.date) (extract_unique_files pd) := by
      have h := sheetUpdate_append ((headerRow :: ds) ++ [breakRow])
        (List.map (rowOfRecord pd.date) (extract_unique_files pd))
      simpa [Nat.add_assoc] using h
    rw [h2]
    simp

/-- Witness for C2: reconciling `samplePd` with separators into a sheet
holding the header and one data row, in append mode. -/
theorem C2_witness :
    ((∀ r ∈ [cexRowOld], r.length = 5) ∧ extract_unique_files samplePd ≠ [] ∧
      [cexRowOld] ≠ ([] : List Row) ∧ (∀ r ∈ [cexRowOld], r.headD "" ≠ "")) ∧
    uploadDataModel samplePd false true (headerRow :: [cexRowOld]) =
      some ((headerRow :: [cexRowOld]) ++
        breakRow :: (extract_unique_files samplePd).map (rowOfRecord samplePd.date)) :=
  ⟨⟨by decide, by decide, by decide, by decide⟩,
   (C2_separator_amended samplePd [cexRowOld] (by decide) (by decide)).2.2.2
     (by decide) (by decide)⟩

/-! ## Structural lemmas about the plain-text scan -/

/-- The summary branches never touch the header fields or the operations. -/
theorem itemsTotalStep_fields (line : String) (st : SyncRunData) :
    (itemsTotalStep line st).sync_name = st.sync_name ∧
    (itemsTotalStep line st).date = st.date ∧
    (itemsTotalStep line st).start_time = st.start_time ∧
    (itemsTotalStep line st).sync_operations = st.sync_operations := by
  unfold itemsTotalStep
  repeat' split
  all_goals simp

/-- Appending a file event keeps the number of operations. -/
theorem appendEventToLast_count (st : SyncRunData) (ev : FileEventD) :
    (appendEventToLast st ev).sync_operations.length =
      st.sync_operations.length := by
  unfold appendEventToLast
  rcases hlast : st.sync_operations.getLast? with _ | op
  · rfl
  · have hne : st.sync_operations ≠ [] := by
      intro h0
      rw [h0] at hlast
      cases hlast
    have hpos : 0 < st.sync_operations.length := List.length_pos.mpr hne
    simp only [List.length_append, List.length_dropLast, List.length_cons,
      List.length_nil]
    omega

/-- Appending a file event keeps the header fields. -/
theorem appendEventToLast_fields (st : SyncRunData) (ev : FileEventD) :
    (appendEventToLast st ev).sync_name = st.sync_name ∧
    (appendEventToLast st ev).date = st.date ∧
    (appendEventToLast st ev).start_time = st.start_time := by
  unfold appendEventToLast
  rcases st.sync_operations.getLast? with _ | op <;> simp

/-- The creating-file branch keeps the header fields and the operation
count. -/
theorem creatingStep_fields (line : String) (st : SyncRunData) :
    (creatingStep line st).sync_name = st.sync_name ∧
    (creatingStep line st).date = st.date ∧
    (creatingStep line st).start_time = st.start_time ∧
    (creatingStep line st).sync_operations.length =
      st.sync_operations.length := by
  unfold creatingStep
  rcases creatingFind line.data with _ | fp
  · exact ⟨rfl, rfl, rfl, rfl⟩
  · simp only
    split
    · exact ⟨rfl, rfl, rfl, rfl⟩
    · rcases timestampMatch line.data with _ | ts
      · exact ⟨rfl, rfl, rfl, rfl⟩
      · exact ⟨(appendEventToLast_fields st _).1,
          (appendEventToLast_fields st _).2.1,
          (appendEventToLast_fields st _).2.2,
          appendEventToLast_count st _⟩

/-- Scan of a blank line: skip. -/
theorem lineClass_blank (st : SyncRunData) : lineClass "" st = .c1 st := by
  simp [lineClass]

/-- Scan of a header-shaped line: set the header fields. -/
theorem lineClass_header (line : String) (st : SyncRunData) (n d t : String)
    (hh : headerMatch line.data = some (n, d, t)) :
    lineClass line st = .c1 (setHeader st n d t) := by
  have h0 : ¬ line = "" := by
    intro he
    rw [he] at hh
    rw [show headerMatch ("" : String).data = none from rfl] at hh
    cases hh
  simp [lineClass, if_neg h0, hh]

/-- Scan of a comparison-summary line: update or raise. -/
theorem lineClass_comp (line : String) (st : SyncRunData) (g : List Char)
    (t : String) (h0 : ¬ line = "") (hh : headerMatch line.data = none)
    (hc : comparisonFind line.data = some (g, t)) :
    lineClass line st =
      if (g.filter Char.isDigit).isEmpty then .err
      else .c1 (setComparison (itemsTotalStep line st) g t) := by
  simp [lineClass, if_neg h0, hh, hc]

/-- Scan of a marker line (no earlier branch matched): open an operation. -/
theorem lineClass_marker (line : String) (st : SyncRunData)
    (h0 : ¬ line = "") (hh : headerMatch line.data = none)
    (hc : comparisonFind line.data = none)
    (hmk : containsMarker line = true) :
    lineClass line st = .op (itemsTotalStep line st) := by
  simp [lineClass, if_neg h0, hh, hc, hmk]

/-- Scan of any other line: at most a creating-file update. -/
theorem lineClass_other (line : String) (st : SyncRunData)
    (h0 : ¬ line = "") (hh : headerMatch line.data = none)
    (hc : comparisonFind line.data = none)
    (hmk : containsMarker line = false) :
    lineClass line st = .c1 (creatingStep line (itemsTotalStep line st)) := by
  simp [lineClass, if_neg h0, hh, hc, hmk]

/-- Total shape analysis of one scan step: an error happens only on a
comma-count comparison line; a one-line step keeps the operation count and
(when the line is not header-shaped) the header fields; a marker step
carries the summary-updated state. -/
theorem lineClass_shape (line : String) (st : SyncRunData) :
    (lineClass line st = .err ∧ badCompLine line = true) ∨
    (∃ st', lineClass line st = .c1 st' ∧
      st'.sync_operations.length = st.sync_operations.length ∧
      (headerMatch line.data = none →
        st'.sync_name = st.sync_name ∧ st'.date = st.date ∧
        st'.start_time = st.start_time)) ∨
    (lineClass line st = .op (itemsTotalStep line st) ∧
      containsMarker line = true) := by
  by_cases h0 : line = ""
  · subst h0
    refine Or.inr (Or.inl ⟨st, lineClass_blank st, rfl, fun _ => ⟨rfl, rfl, rfl⟩⟩)
  rcases hh : headerMatch line.data with _ | ⟨n, d, t⟩
  · rcases hc : comparisonFind line.data with _ | ⟨g, t⟩
    · rcases hmk : containsMarker line with _ | _
      · refine Or.inr (Or.inl ⟨creatingStep line (itemsTotalStep line st),
          lineClass_other line st h0 hh hc hmk, ?_, fun _ => ?_⟩)
        · rw [(creatingStep_fields line _).2.2.2,
            (itemsTotalStep_fields line st).2.2.2]
        · refine ⟨?_, ?_, ?_⟩
          · rw [(creatingStep_fields line _).1, (itemsTotalStep_fields line st).1]
          · rw [(creatingStep_fields line _).2.1,
              (itemsTotalStep_fields line st).2.1]
          · rw [(creatingStep_fields line _).2.2.1,
              (itemsTotalStep_fields line st).2.2.1]
      · exact Or.inr (Or.inr ⟨lineClass_marker line st h0 hh hc hmk, rfl⟩)
    · by_cases hdig : (g.filter Char.isDigit).isEmpty = true
      · refine Or.inl ⟨?_, ?_⟩
        · rw [lineClass_comp line st g t h0 hh hc, if_pos hdig]
        · simp only [badCompLine, hc]
          exact hdig
      · refine Or.inr (Or.inl
          ⟨setComparison (itemsTotalStep line st) g t, ?_, ?_, fun _ => ?_⟩)
        · rw [lineClass_comp line st g t h0 hh hc, if_neg hdig]
        · simp [setComparison, (itemsTotalStep_fields line st).2.2.2]
        · exact ⟨by simp [setComparison, (itemsTotalStep_fields line st).1],
            by simp [setComparison, (itemsTotalStep_fields line st).2.1],
            by simp [setComparison, (itemsTotalStep_fields line st).2.2.1]⟩
  · refine Or.inr (Or.inl ⟨setHeader st n d t, lineClass_header line st n d t hh, rfl,
      fun hnone => ?_⟩)
    cases hnone

/-- Unfolding of the scan at a line consumed on its own. -/
theorem processLines_cons_c1 (l : String) (rest : List String)
    (st st' : SyncRunData) (h : lineClass (pyStrip l) st = .c1 st') :
    processLines (l :: rest) st = processLines rest st' := by
  simp [processLines, h]

/-- Unfolding of the scan at an erroring line. -/
theorem processLines_cons_err (l : String) (rest : List String)
    (st : SyncRunData) (h : lineClass (pyStrip l) st = .err) :
    processLines (l :: rest) st = .error () := by
  simp [processLines, h]

/-- Unfolding of the scan at a marker line followed by two or more lines:
the three lines are consumed atomically. -/
theorem processLines_cons_op (l a b : String) (rest : List String)
    (st st1 : SyncRunData) (h : lineClass (pyStrip l) st = .op st1) :
    processLines (l :: a :: b :: rest) st =
      processLines rest (addOp st1 (pyStrip a) (pyStrip b)) := by
  simp [processLines, h]

/-- Unfolding of the scan at a marker line with no following line. -/
theorem processLines_cons_op_nil (l : String) (st st1 : SyncRunData)
    (h : lineClass (pyStrip l) st = .op st1) :
    processLines [l] st = .ok (creatingStep (pyStrip l) st1) := by
  simp [processLines, h]

/-- Unfolding of the scan at a marker line with exactly one following
line. -/
theorem processLines_cons_op_one (l a : String) (st st1 : SyncRunData)
    (h : lineClass (pyStrip l) st = .op st1) :
    processLines [l, a] st =
      processLines [a] (creatingStep (pyStrip l) st1) := by
  simp [processLines, h]

/-- The scan succeeds whenever no line is a comma-count comparison line. -/
theorem processLines_ok_aux :
    ∀ (fuel : Nat) (ls : List String) (st : SyncRunData),
      ls.length ≤ fuel →
      (∀ l ∈ ls, badCompLine (pyStrip l) = false) →
      ∃ pd, processLines ls st = Except.ok pd := by
  intro fuel
  induction fuel with
  | zero =>
    intro ls st hlen _
    have h0 : ls = [] := List.eq_nil_of_length_eq_zero (Nat.le_zero.mp hlen)
    subst h0
    exact ⟨st, rfl⟩
  | succ fuel ih =>
    intro ls st hlen hbad
    rcases ls with _ | ⟨l, rest⟩
    · exact ⟨st, rfl⟩
    rcases lineClass_shape (pyStrip l) st with ⟨_, hbadl⟩ | ⟨st', hc1, _, _⟩ |
      ⟨hop, _⟩
    · rw [hbad l (List.mem_cons_self l rest)] at hbadl
      cases hbadl
    · rw [processLines_cons_c1 l rest st st' hc1]
      have hlen1 : rest.length ≤ fuel := by
        simp only [List.length_cons] at hlen
        omega
      exact ih rest st' hlen1 fun x hx => hbad x (List.mem_cons_of_mem l hx)
    · rcases rest with _ | ⟨a, rest1⟩
      · exact ⟨_, processLines_cons_op_nil l st _ hop⟩
      rcases rest1 with _ | ⟨b, rest2⟩
      · rw [processLines_cons_op_one l a st _ hop]
        have hlen1 : [a].length ≤ fuel := by
          simp only [List.length_cons] at hlen ⊢
          omega
        refine ih [a] _ hlen1 fun x hx => ?_
        rcases List.mem_singleton.mp hx with rfl
        exact hbad x (List.mem_cons_of_mem l (List.mem_cons_self x []))
      · rw [processLines_cons_op l a b rest2 st _ hop]
        have hlen2 : rest2.length ≤ fuel := by
          simp only [List.length_cons] at hlen
          omega
        refine ih rest2 _ hlen2 fun x hx => ?_
        exact hbad x (List.mem_cons_of_mem l
          (List.mem_cons_of_mem a (List.mem_cons_of_mem b hx)))

/-- The summary branches are inert on a line without their markers. -/
theorem itemsTotalStep_none (line : String) (st : SyncRunData)
    (h1 : pyStartsWith line "|    Items processed:" = false)
    (h2 : pyStartsWith line "|    Total time:" = false) :
    itemsTotalStep line st = st := by
  unfold itemsTotalStep
  rw [if_neg (by rw [h1]; exact Bool.false_ne_true),
    if_neg (by rw [h2]; exact Bool.false_ne_true)]

/-- The creating-file branch is inert when the pattern does not match. -/
theorem creatingStep_none (line : String) (st : SyncRunData)
    (h : creatingFind line.data = none) :
    creatingStep line st = st := by
  unfold creatingStep
  rw [h]

/-- A scan over lines with no recognizable structure leaves the state
untouched. -/
theorem processLines_inert :
    ∀ (ls : List String) (st : SyncRunData),
      (∀ l ∈ ls, noStructure (pyStrip l) = true) →
      processLines ls st = Except.ok st := by
  intro ls
  induction ls with
  | nil => intro st _; rfl
  | cons l rest ih =>
    intro st h
    have hl := h l (List.mem_cons_self l rest)
    simp only [noStructure, Bool.and_eq_true, Option.isNone_iff_eq_none,
      Bool.not_eq_true'] at hl
    obtain ⟨⟨⟨⟨⟨hh, hi⟩, ht⟩, hc⟩, hmk⟩, hcr⟩ := hl
    have hrest := fun x hx => h x (List.mem_cons_of_mem l hx)
    by_cases h0 : pyStrip l = ""
    · rw [processLines_cons_c1 l rest st st (by rw [h0]; exact lineClass_blank st)]
      exact ih st hrest
    · have hstep : lineClass (pyStrip l) st = .c1 st := by
        rw [lineClass_other (pyStrip l) st h0 hh hc hmk,
          itemsTotalStep_none _ st hi ht, creatingStep_none _ st hcr]
      rw [processLines_cons_c1 l rest st st hstep]
      exact ih st hrest

/-! ## Claim C3 — parse totality and graceful degradation -/

/-- Claim C3 (amended): markup parsing always returns a run; plain-text
parsing returns a run whenever no line matches the comparison pattern with
an all-comma count (the one raising statement, parser.py:117); and an
input with no recognizable structure yields the initial run: all optional
header fields unset and an empty operation sequence. -/
theorem C3_parse_total_amended :
    (∀ content : String, ∃ pd, parseSyncLog true content = Except.ok pd) ∧
    (∀ content : String,
      (∀ l ∈ splitlinesStr content, badCompLine (pyStrip l) = false) →
      ∃ pd, parseSyncLog false content = Except.ok pd) ∧
    (∀ content : String,
      (∀ l ∈ splitlinesStr content, noStructure (pyStrip l) = true) →
      parseSyncLog false content = Except.ok initialRun) := by
  refine ⟨fun content => ⟨parseHtmlModel content, rfl⟩, ?_, ?_⟩
  · intro content h
    exact processLines_ok_aux (splitlinesStr content).length
      (splitlinesStr content) initialRun le_rfl h
  · intro content h
    exact processLines_inert (splitlinesStr content) initialRun h

set_option maxRecDepth 8192 in
/-- Witness for C3 on a structureless input. -/
theorem C3_witness :
    (∀ l ∈ splitlinesStr "no structure here\njust text",
      noStructure (pyStrip l) = true) ∧
    parseSyncLog false "no structure here\njust text" = Except.ok initialRun :=
  ⟨by decide, C3_parse_total_amended.2.2 "no structure here\njust text" (by decide)⟩

/-! ## Claim C4 — header capture across the scan -/

/-- Opening an operation keeps the header fields. -/
theorem addOp_fields (st : SyncRunData) (src dst : String) :
    (addOp st src dst).sync_name = st.sync_name ∧
    (addOp st src dst).date = st.date ∧
    (addOp st src dst).start_time = st.start_time :=
  ⟨rfl, rfl, rfl⟩

/-- A scan over lines none of which is header-shaped never changes the
header fields. -/
theorem processLines_header_preserve :
    ∀ (fuel : Nat) (ls : List String) (st pd : SyncRunData),
      ls.length ≤ fuel →
      (∀ x ∈ ls, headerMatch (pyStrip x).data = none) →
      processLines ls st = Except.ok pd →
      pd.sync_name = st.sync_name ∧ pd.date = st.date ∧
        pd.start_time = st.start_time := by
  intro fuel
  induction fuel with
  | zero =>
    intro ls st pd hlen _ hrun
    have h0 : ls = [] := List.eq_nil_of_length_eq_zero (Nat.le_zero.mp hlen)
    subst h0
    cases hrun
    exact ⟨rfl, rfl, rfl⟩
  | succ fuel ih =>
    intro ls st pd hlen hh hrun
    rcases ls with _ | ⟨l, rest⟩
    · cases hrun
      exact ⟨rfl, rfl, rfl⟩
    have hhl := hh l (List.mem_cons_self l rest)
    rcases lineClass_shape (pyStrip l) st with ⟨herr, _⟩ | ⟨st', hc1, _, hfields⟩ |
      ⟨hop, _⟩
    · rw [processLines_cons_err l rest st herr] at hrun
      cases hrun
    · rw [processLines_cons_c1 l rest st st' hc1] at hrun
      have hlen1 : rest.length ≤ fuel := by
        simp only [List.length_cons] at hlen
        omega
      have hrec := ih rest st' pd hlen1
        (fun x hx => hh x (List.mem_cons_of_mem l hx)) hrun
      obtain ⟨e1, e2, e3⟩ := hfields hhl
      exact ⟨hrec.1.trans e1, hrec.2.1.trans e2, hrec.2.2.trans e3⟩
    · have hstep := itemsTotalStep_fields (pyStrip l) st
      rcases rest with _ | ⟨a, rest1⟩
      · rw [processLines_cons_op_nil l st _ hop] at hrun
        cases hrun
        have hcr := creatingStep_fields (pyStrip l) (itemsTotalStep (pyStrip l) st)
        exact ⟨hcr.1.trans hstep.1, hcr.2.1.trans hstep.2.1,
          hcr.2.2.1.trans hstep.2.2.1⟩
      rcases rest1 with _ | ⟨b, rest2⟩
      · rw [processLines_cons_op_one l a st _ hop] at hrun
        have hlen1 : [a].length ≤ fuel := by
          simp only [List.length_cons] at hlen ⊢
          omega
        have hrec := ih [a] _ pd hlen1 (fun x hx => by
          rcases List.mem_singleton.mp hx with rfl
          exact hh x (List.mem_cons_of_mem l (List.mem_cons_self x []))) hrun
        have hcr := creatingStep_fields (pyStrip l) (itemsTotalStep (pyStrip l) st)
        exact ⟨hrec.1.trans (hcr.1.trans hstep.1),
          hrec.2.1.trans (hcr.2.1.trans hstep.2.1),
          hrec.2.2.trans (hcr.2.2.1.trans hstep.2.2.1)⟩
      · rw [processLines_cons_op l a b rest2 st _ hop] at hrun
        have hlen2 : rest2.length ≤ fuel := by
          simp only [List.length_cons] at hlen
          omega
        have hrec := ih rest2 _ pd hlen2 (fun x hx =>
          hh x (List.mem_cons_of_mem l
            (List.mem_cons_of_mem a (List.mem_cons_of_mem b hx)))) hrun
        have hao := addOp_fields (itemsTotalStep (pyStrip l) st) (pyStrip a) (pyStrip b)
        exact ⟨hrec.1.trans (hao.1.trans hstep.1),
          hrec.2.1.trans (hao.2.1.trans hstep.2.1),
          hrec.2.2.trans (hao.2.2.trans hstep.2.2.1)⟩

/-- Scanning a marker-free block reaches the remaining lines in one piece
(or raises on a comma-count comparison line). -/
theorem processLines_append_nomarker :
    ∀ (ls1 rest : List String) (st : SyncRunData),
      (∀ x ∈ ls1, containsMarker (pyStrip x) = false) →
      (∃ st1, processLines (ls1 ++ rest) st = processLines rest st1) ∨
        processLines (ls1 ++ rest) st = Except.error () := by
  intro ls1
  induction ls1 with
  | nil => intro rest st _; exact Or.inl ⟨st, rfl⟩
  | cons l ls ih =>
    intro rest st h
    rcases lineClass_shape (pyStrip l) st with ⟨herr, _⟩ | ⟨st', hc1, _, _⟩ |
      ⟨_, hmk⟩
    · exact Or.inr (processLines_cons_err l (ls ++ rest) st herr)
    · have heq : processLines ((l :: ls) ++ rest) st =
          processLines (ls ++ rest) st' :=
        processLines_cons_c1 l (ls ++ rest) st st' hc1
      rcases ih rest st' (fun x hx => h x (List.mem_cons_of_mem l hx)) with
        ⟨st2, heq2⟩ | herr2
      · exact Or.inl ⟨st2, heq.trans heq2⟩
      · exact Or.inr (heq.trans herr2)
    · rw [h l (List.mem_cons_self l ls)] at hmk
      cases hmk

/-- Claim C4 (amended): the scan sets the header fields to the captured
groups of the last header-shaped line it reaches — a later header-shaped
line overwrites an earlier one; here stated for a run whose final
header-shaped line is `l`: no marker line precedes it (so it is not
consumed as a folder-pair path) and no header-shaped line follows it. -/
theorem C4_header_lastwins :
    ∀ (ls1 : List String) (l : String) (ls2 : List String) (n d t : String)
      (pd : SyncRunData),
      (∀ x ∈ ls1, containsMarker (pyStrip x) = false) →
      headerMatch (pyStrip l).data = some (n, d, t) →
      (∀ x ∈ ls2, headerMatch (pyStrip x).data = none) →
      processLines (ls1 ++ l :: ls2) initialRun = Except.ok pd →
      pd.sync_name = some n ∧ pd.date = some d ∧ pd.start_time = some t := by
  intro ls1 l ls2 n d t pd h1 h2 h3 hrun
  rcases processLines_append_nomarker ls1 (l :: ls2) initialRun h1 with
    ⟨st1, heq⟩ | herr
  · rw [heq] at hrun
    rw [processLines_cons_c1 l ls2 st1 (setHeader st1 n d t)
      (lineClass_header (pyStrip l) st1 n d t h2)] at hrun
    have hrec := processLines_header_preserve ls2.length ls2
      (setHeader st1 n d t) pd le_rfl h3 hrun
    exact ⟨hrec.1, hrec.2.1, hrec.2.2⟩
  · rw [herr] at hrun
    cases hrun

set_option maxRecDepth 8192 in
/-- Witness for C4: a junk line, one header line, one structureless line. -/
theorem C4_witness :
    headerMatch (pyStrip "A 1/1/1 [1:1:1 AM]").data =
      some ("A", "1/1/1", "1:1:1 AM") ∧
    ∃ pd, processLines (["junk"] ++ "A 1/1/1 [1:1:1 AM]" :: ["noise"])
        initialRun = Except.ok pd ∧
      pd.sync_name = some "A" ∧ pd.date = some "1/1/1" ∧
      pd.start_time = some "1:1:1 AM" := by
  refine ⟨by decide,
    ⟨{ sync_name := some "A", date := some "1/1/1",
       start_time := some "1:1:1 AM" }, by decide, ?_⟩⟩
  exact C4_header_lastwins ["junk"] "A 1/1/1 [1:1:1 AM]" ["noise"]
    "A" "1/1/1" "1:1:1 AM" _ (by decide) (by decide) (by decide) (by decide)

/-! ## Claim C6 — the folder-pair branch -/

/-- Claim C6 (amended): a line containing the folder-pair marker that does
not also match the earlier header or comparison patterns opens a new
operation from the next two lines (whitespace-stripped) and consumes all
three lines atomically; with fewer than two following lines no operation is
opened and the scan advances one line at a time. -/
theorem C6_folder_pair_amended :
    ∀ (st : SyncRunData) (m a b : String) (rest short : List String),
      containsMarker (pyStrip m) = true →
      headerMatch (pyStrip m).data = none →
      comparisonFind (pyStrip m).data = none →
      (processLines (m :: a :: b :: rest) st =
        processLines rest
          (addOp (itemsTotalStep (pyStrip m) st) (pyStrip a) (pyStrip b))) ∧
      (short.length < 2 →
        ∀ pd, processLines (m :: short) st = Except.ok pd →
          pd.sync_operations.length = st.sync_operations.length) := by
  intro st m a b rest short hmk hh hc
  have h0 : ¬ pyStrip m = "" := by
    intro he
    rw [he] at hmk
    exact absurd hmk (by decide)
  have hop := lineClass_marker (pyStrip m) st h0 hh hc hmk
  constructor
  · exact processLines_cons_op m a b rest st _ hop
  · intro hshort pd hrun
    have hcount1 : (creatingStep (pyStrip m)
        (itemsTotalStep (pyStrip m) st)).sync_operations.length =
        st.sync_operations.length := by
      rw [(creatingStep_fields _ _).2.2.2, (itemsTotalStep_fields _ _).2.2.2]
    rcases short with _ | ⟨x, short1⟩
    · rw [processLines_cons_op_nil m st _ hop] at hrun
      cases hrun
      exact hcount1
    rcases short1 with _ | ⟨y, short2⟩
    · rw [processLines_cons_op_one m x st _ hop] at hrun
      rcases lineClass_shape (pyStrip x)
          (creatingStep (pyStrip m) (itemsTotalStep (pyStrip m) st)) with
        ⟨herr, _⟩ | ⟨st3, hc1, hcnt, _⟩ | ⟨hopx, _⟩
      · rw [processLines_cons_err x [] _ herr] at hrun
        cases hrun
      · rw [processLines_cons_c1 x [] _ st3 hc1] at hrun
        cases hrun
        exact hcnt.trans hcount1
      · rw [processLines_cons_op_nil x _ _ hopx] at hrun
        cases hrun
        rw [(creatingStep_fields _ _).2.2.2, (itemsTotalStep_fields _ _).2.2.2]
        exact hcount1
    · simp only [List.length_cons] at hshort
      omega

set_option maxRecDepth 8192 in
/-- Witness for C6 at a pure marker line followed by a source and a
destination line. -/
theorem C6_witness :
    (containsMarker (pyStrip "Synchronizing folder pair: Update >") = true ∧
     headerMatch (pyStrip "Synchronizing folder pair: Update >").data = none ∧
     comparisonFind (pyStrip "Synchronizing folder pair: Update >").data = none) ∧
    processLines ["Synchronizing folder pair: Update >", " C:\\S ", "C:\\D"]
        initialRun =
      processLines []
        (addOp (itemsTotalStep (pyStrip "Synchronizing folder pair: Update >")
            initialRun)
          (pyStrip " C:\\S ") (pyStrip "C:\\D")) :=
  ⟨⟨by decide, by decide, by decide⟩,
   (C6_folder_pair_amended initialRun "Synchronizing folder pair: Update >"
      " C:\\S " "C:\\D" [] [] (by decide) (by decide) (by decide)).1⟩
